import Mathlib

/-!
Shallow embedding of the core of the rust-snake repository
(src/block.rs, src/direction.rs, src/snake.rs, src/food.rs, src/game.rs).

Modelling conventions:
* Rust `i32` is modelled as `Int` (the claims under study do not concern
  machine-integer overflow).
* Rust `[i32; 2]` bound pairs are modelled as `Int × Int` (`[lo, hi]`).
* `VecDeque<Block>` is a `List Block` whose list head is the deque front.
* `HashMap<Block, i32>` (the digesting map) is an association list
  `List (Block × Int)`; insertion replaces an existing binding, lookups are
  by key, and iteration-order differences of the Rust hash map are
  unobservable through the lookup interface used by the program.
* A Rust method that can `unwrap` a `None` (a panic) is modelled as a
  function into `Option`, returning `none` exactly when the panic occurs.
* `Vec::push` appends at the end, `Vec::last` reads the end.
* Randomness is made explicit: `SliceRandom::choose` on a non-empty list is
  modelled by an arbitrary index `choice` reduced modulo the list length,
  and `Rng::gen_range(0..n)` by an explicit parameter `r` ranging over
  `[0, n)`.
* `f64` Euclidean distances appear in the source only through the strictly
  monotone `sqrt` of an integer sum of squares, and only in `<`/`==`
  comparisons; they are modelled by the exact integer squared distance,
  which induces the same comparison results.
-/

/-- `Block` from src/block.rs: an (x, y) grid coordinate. -/
structure Block where
  x : Int
  y : Int
deriving DecidableEq

/-- `Block::new` from src/block.rs. -/
def Block.new (x y : Int) : Block := ⟨x, y⟩

/-- `Block::out_of_bounds` from src/block.rs (lines 26-31). -/
def Block.out_of_bounds (b : Block) (x_bounds y_bounds : Int × Int) : Bool :=
  decide (b.x ≤ x_bounds.1) || decide (b.x ≥ x_bounds.2 - 1) ||
    decide (b.y ≤ y_bounds.1) || decide (b.y ≥ y_bounds.2 - 1)

/-- `Direction` from src/direction.rs. -/
inductive Direction where
  | Up
  | Down
  | Left
  | Right
deriving DecidableEq

/-- `Direction::opposite` from src/direction.rs. -/
def Direction.opposite : Direction → Direction
  | .Up => .Down
  | .Down => .Up
  | .Left => .Right
  | .Right => .Left

/-- The unit offset each direction maps to in `Direction::offsets`. -/
def Direction.offset : Direction → Int × Int
  | .Up => (0, -1)
  | .Down => (0, 1)
  | .Left => (-1, 0)
  | .Right => (1, 0)

/-- `Direction::offsets` from src/direction.rs: the four (direction, unit
offset) pairs. The Rust `HashMap` iteration order is unspecified; the facts
proved below are insensitive to the order, which is here fixed to the
insertion order of the source. -/
def Direction.offsets : List (Direction × (Int × Int)) :=
  [(.Up, (0, -1)), (.Down, (0, 1)), (.Left, (-1, 0)), (.Right, (1, 0))]

/-- `Snake` from src/snake.rs. -/
structure Snake where
  current_direction : Direction
  tail : Option Block
  body : List Block
  digesting : List (Block × Int)
deriving DecidableEq

/-- `SNAKE_STARTING_LENGTH` from src/snake.rs. -/
def SNAKE_STARTING_LENGTH : Int := 3

/-- `Snake::new` from src/snake.rs (lines 39-64): the body is `length`
(default 3) copies of the single coordinate `(x+dx, y+dy)`; the loop
`for _ in (0..length).rev()` runs `length` times when `length > 0` and not
at all otherwise, hence `Int.toNat`. -/
def Snake.new (x y : Int) (length : Option Int) (direction : Option Direction) : Snake :=
  let off : Int × Int :=
    match direction with
    | some .Up => (0, -1)
    | some .Down => (0, 1)
    | some .Left => (-1, 0)
    | _ => (1, 0)
  { current_direction := direction.getD .Right
    tail := none
    body := List.replicate (length.getD SNAKE_STARTING_LENGTH).toNat ⟨x + off.1, y + off.2⟩
    digesting := [] }

/-- `Snake::len` from src/snake.rs. -/
def Snake.len (s : Snake) : Int := (s.body.length : Int)

/-- `Snake::head_position` from src/snake.rs: `body.front().unwrap()`,
`none` modelling the panic on an empty body. -/
def Snake.head_position (s : Snake) : Option Block := s.body.head?

/-- `Snake::head_direction` from src/snake.rs. -/
def Snake.head_direction (s : Snake) : Direction := s.current_direction

/-- The match on the moving direction shared verbatim by
`Snake::move_forward` and `Snake::next_head` in src/snake.rs. -/
def moveBlock (head : Block) : Direction → Block
  | .Up => ⟨head.x, head.y - 1⟩
  | .Down => ⟨head.x, head.y + 1⟩
  | .Left => ⟨head.x - 1, head.y⟩
  | .Right => ⟨head.x + 1, head.y⟩

/-- The digesting-map rebuild at the top of `Snake::move_forward`
(src/snake.rs lines 161-167): keep entries with count `>= 1`, decremented. -/
def digStep (m : List (Block × Int)) : List (Block × Int) :=
  (m.filter fun p => decide (1 ≤ p.2)).map fun p => (p.1, p.2 - 1)

/-- `Snake::move_forward` from src/snake.rs (lines 155-192): overwrite the
direction when one is supplied, rebuild the digesting map, push the new head
block to the front and pop the back into the tail slot. `none` models the
`head_position` panic on an empty body (the pushed list is never empty, so
the `pop_back().unwrap()` never fails). -/
def Snake.move_forward (s : Snake) (direction : Option Direction) : Option Snake :=
  let cur := direction.getD s.current_direction
  let dig := digStep s.digesting
  match s.body.head? with
  | none => none
  | some head =>
    let new_block := moveBlock head cur
    let pushed := new_block :: s.body
    some { current_direction := cur
           tail := pushed.getLast?
           body := pushed.dropLast
           digesting := dig }

/-- `Snake::next_head` from src/snake.rs (lines 199-225). -/
def Snake.next_head (s : Snake) (direction : Option Direction) : Option Block :=
  match s.body.head? with
  | none => none
  | some head => some (moveBlock head (direction.getD s.current_direction))

/-- `Snake::restore_tail` from src/snake.rs (lines 228-230):
`body.push_back(tail.unwrap())`; `none` models the panic when the tail slot
is empty. -/
def Snake.restore_tail (s : Snake) : Option Snake :=
  match s.tail with
  | none => none
  | some t => some { s with body := s.body ++ [t] }

/-- The counting loop of `Snake::overlap_tail` (src/snake.rs lines 239-251):
the counter is incremented before the comparison and the loop breaks when it
reaches the body length, so the last element is never compared. -/
def overlapAux (block : Block) (len : Nat) : List Block → Nat → Bool
  | [], _ => false
  | b :: rest, counter =>
    if counter + 1 = len then false
    else if b = block then true
    else overlapAux block len rest (counter + 1)

/-- `Snake::overlap_tail` from src/snake.rs (lines 237-252). -/
def Snake.overlap_tail (s : Snake) (block : Block) : Bool :=
  overlapAux block s.body.length s.body 0

/-- Lookup in the digesting map (`HashMap::get`). -/
def digGet (m : List (Block × Int)) (k : Block) : Option Int :=
  (m.find? fun p => decide (p.1 = k)).map Prod.snd

/-- Insertion into the digesting map (`HashMap::insert`): replaces any
existing binding for the key. -/
def digInsert (m : List (Block × Int)) (k : Block) (v : Int) : List (Block × Int) :=
  (k, v) :: (m.filter fun p => decide (p.1 ≠ k))

/-- `FOOD_SPEED_INCREASE` from src/food.rs. -/
def FOOD_SPEED_INCREASE : Int := 5

/-- The integer square of `get_distance` from src/food.rs (lines 17-19): the
source takes the `f64` square root of this value; `sqrt` is strictly
monotone on nonnegative reals, so the `<` and `==` comparisons performed on
distances coincide with the same comparisons on the squared values. -/
def get_distance_sq (block1 block2 : Block) : Int :=
  (block1.x - block2.x) ^ 2 + (block1.y - block2.y) ^ 2

/-- The loop state of `get_escape_offset`: current best (squared) distance
and the accumulated best offsets. -/
structure EscState where
  best_dist : Int
  best_offsets : List (Int × Int)
deriving DecidableEq

/-- One iteration of the candidate loop in `get_escape_offset`
(src/food.rs lines 38-51): skip a destination that is out of bounds or
overlaps the snake body, otherwise compare its distance to the best. -/
def esc_step (block : Block) (snake : Snake) (x_bounds y_bounds : Int × Int) (head : Block)
    (st : EscState) (offset : Int × Int) : EscState :=
  let destination : Block := ⟨block.x + offset.1, block.y + offset.2⟩
  if destination.out_of_bounds x_bounds y_bounds || snake.overlap_tail destination then st
  else
    let current_dist := get_distance_sq destination head
    if st.best_dist < current_dist then { best_dist := current_dist, best_offsets := [offset] }
    else if current_dist = st.best_dist then
      { st with best_offsets := st.best_offsets ++ [offset] }
    else st

/-- The full candidate loop of `get_escape_offset`, starting from the
stay-put offset `(0,0)` at the food's own distance. -/
def esc_fold (block : Block) (snake : Snake) (x_bounds y_bounds : Int × Int)
    (head : Block) : EscState :=
  (Direction.offsets.map Prod.snd).foldl (esc_step block snake x_bounds y_bounds head)
    { best_dist := get_distance_sq block head, best_offsets := [(0, 0)] }

/-- `get_escape_offset` from src/food.rs (lines 29-56). The random
`choose` over the non-empty `best_offsets` is modelled by an arbitrary
index `choice` reduced modulo the list length; `none` models the
`head_position` panic on an empty snake body. -/
def get_escape_offset (block : Block) (snake : Snake) (x_bounds y_bounds : Int × Int)
    (choice : Nat) : Option (Int × Int) :=
  match snake.head_position with
  | none => none
  | some head =>
    let l := (esc_fold block snake x_bounds y_bounds head).best_offsets
    some (l.getD (choice % l.length) (0, 0))

/-- `escape` from src/food.rs (lines 66-78): weight
`(len * FOOD_SPEED_INCREASE).clamp(0, area)` against a draw `r` in
`[0, area)`. `none` models the panics: `clamp` requires `0 ≤ area` and
`gen_range(0..area)` requires `0 < area`, so both are captured by
`area ≤ 0`; the speed factor is the fixed constant `FOOD_SPEED_INCREASE`. -/
def escape (block : Block) (snake : Snake) (x_bounds y_bounds : Int × Int)
    (r : Int) (choice : Nat) : Option (Int × Int) :=
  match get_escape_offset block snake x_bounds y_bounds choice with
  | none => none
  | some esc =>
    let area := (x_bounds.2 - x_bounds.1) * (y_bounds.2 - y_bounds.1)
    if area ≤ 0 then none
    else
      let w := max 0 (min (snake.len * FOOD_SPEED_INCREASE) area)
      some (if r ≤ w then esc else (0, 0))

/-- `SCORE_BORDER_WIDTH` from src/game.rs. -/
def SCORE_BORDER_WIDTH : Int := 1

/-- The keys relevant to `Game::key_pressed`: the four direction keys,
space, and a representative of every other key. -/
inductive Key where
  | Up
  | Down
  | Left
  | Right
  | Space
  | Other
deriving DecidableEq

/-- `Game` from src/game.rs. The drawing-only `borders` field and the
pixel-level constants are omitted; `waiting_time: f64` is modelled as `ℚ`
(the claims only involve setting it to zero). `score_name` starts as the
empty string built by `create_empty_name`. -/
structure Game where
  snake : Snake
  food : Option Block
  direction_queue : List (Option Direction)
  width : Int
  height : Int
  game_over : Bool
  waiting_time : ℚ
  score : Int
  high_score : Bool
  score_written : Bool
  score_name : List Char
deriving DecidableEq

/-- `Game::new` from src/game.rs (lines 64-92). -/
def Game.new (width height : Int) (starting_length : Option Int)
    (starting_direction : Option Direction) : Game :=
  { snake := Snake.new 2 2 starting_length starting_direction
    waiting_time := 0
    food := some (Block.new 6 4)
    width := width
    height := height - SCORE_BORDER_WIDTH
    game_over := false
    direction_queue := []
    score := 0
    high_score := false
    score_written := false
    score_name := [] }

/-- `Game::restart` from src/game.rs (lines 396-406). -/
def Game.restart (g : Game) : Game :=
  { g with snake := Snake.new 2 2 none none
           direction_queue := []
           waiting_time := 0
           food := some (Block.new 6 4)
           game_over := false
           score := 0
           high_score := false
           score_written := false
           score_name := [] }

/-- The key-to-direction match inside `Game::key_pressed`
(src/game.rs lines 106-112): every non-direction key maps to the snake's
current head direction. -/
def keyDirection (g : Game) : Key → Direction
  | .Up => .Up
  | .Down => .Down
  | .Left => .Left
  | .Right => .Right
  | _ => g.snake.head_direction

/-- `Game::key_pressed` from src/game.rs (lines 97-119): when the game is
over, space restarts (and execution continues into the direction handling
on the restarted state) while every other key returns immediately; then a
direction equal to the opposite of the head direction is dropped, and any
other is pushed onto the queue. -/
def Game.key_pressed (g : Game) (key : Key) : Game :=
  match (if g.game_over then
           (match key with
            | .Space => some g.restart
            | _ => none)
         else some g) with
  | none => g
  | some g1 =>
    let direction : Option Direction := some (keyDirection g1 key)
    if keyDirection g1 key = g1.snake.head_direction.opposite then g1
    else { g1 with direction_queue := g1.direction_queue ++ [direction] }

/-- `Game::check_snake_alive` from src/game.rs (lines 445-449). -/
def Game.check_snake_alive (g : Game) (direction : Option Direction) : Option Bool :=
  (g.snake.next_head direction).map fun destination =>
    !(g.snake.overlap_tail destination) &&
      !(destination.out_of_bounds (0, g.width) (0, g.height))

/-- `Game::check_eaten` from src/game.rs (lines 428-438): when the head
coincides with the food, insert a digesting entry at the food coordinate
with the snake's current length, clear the food, restore the tail, and
increment the score. `none` models the `food.unwrap()` panic when no food
is present and the panics inside `head_position`/`restore_tail`. -/
def Game.check_eaten (g : Game) : Option Game :=
  match g.food with
  | none => none
  | some f =>
    match g.snake.head_position with
    | none => none
    | some hp =>
      if hp = f then
        let s1 : Snake := { g.snake with digesting := digInsert g.snake.digesting f g.snake.len }
        match s1.restore_tail with
        | none => none
        | some s2 => some { g with snake := s2, food := none, score := g.score + 1 }
      else some g

/-- The direction selection at the top of `Game::update_snake`
(src/game.rs lines 179-182): the last queued entry, or the current head
direction when the queue is empty. -/
def queued_direction (g : Game) : Option Direction :=
  match g.direction_queue.getLast? with
  | some dir => dir
  | none => some g.snake.head_direction

/-- `Game::update_snake` from src/game.rs (lines 178-192): validate
survivability, then either move and check for food or set the game-over
flag; in both cases reset `waiting_time` and clear the direction queue. -/
def Game.update_snake (g : Game) : Option Game :=
  (match g.check_snake_alive (queued_direction g) with
    | none => none
    | some alive =>
      if alive then
        match g.snake.move_forward (queued_direction g) with
        | none => none
        | some s' => Game.check_eaten { g with snake := s' }
      else some { g with game_over := true }).map
    fun g' : Game => { g' with waiting_time := 0, direction_queue := [] }

/-! ## Helper lemmas -/

/-- The `overlap_tail` loop, started with `counter` and total length
`counter + l.length`, decides membership in all but the last element. -/
theorem overlapAux_spec (block : Block) :
    ∀ (l : List Block) (counter : Nat),
      overlapAux block (counter + l.length) l counter = decide (block ∈ l.dropLast) := by
  intro l
  induction l with
  | nil => intro counter; simp [overlapAux]
  | cons b rest ih =>
    intro counter
    cases rest with
    | nil => simp [overlapAux]
    | cons r rs =>
      have hlen : counter + (b :: r :: rs).length = (counter + 1) + (r :: rs).length := by
        simp [List.length_cons]
        omega
      rw [hlen, overlapAux]
      have hne : ¬ (counter + 1 = counter + 1 + (r :: rs).length) := by
        simp [List.length_cons]
      rw [if_neg hne]
      have hdrop : (b :: r :: rs).dropLast = b :: (r :: rs).dropLast := rfl
      rw [hdrop]
      by_cases hb : b = block
      · subst hb
        simp
      · rw [if_neg hb, ih (counter + 1)]
        simp only [List.mem_cons, decide_eq_decide]
        exact Iff.symm (or_iff_right fun h => hb h.symm)

/-- `overlap_tail` decides membership in the body with its last element
removed. -/
theorem overlap_tail_eq_dropLast (s : Snake) (c : Block) :
    s.overlap_tail c = decide (c ∈ s.body.dropLast) := by
  have h := overlapAux_spec c s.body 0
  rw [Nat.zero_add] at h
  exact h

/-- Inserting into the digesting map makes the inserted value the one found
at the key. -/
theorem digGet_digInsert (m : List (Block × Int)) (k : Block) (v : Int) :
    digGet (digInsert m k v) k = some v := by
  simp [digGet, digInsert, List.find?]

/-! ## C9: out_of_bounds characterization -/

/-- C9: for every coordinate (x, y) and bounds `[x_low, x_high]`,
`[y_low, y_high]`, `out_of_bounds` is true exactly when
`x ≤ x_low ∨ x ≥ x_high - 1 ∨ y ≤ y_low ∨ y ≥ y_high - 1`. -/
theorem out_of_bounds_iff (x y x_low x_high y_low y_high : Int) :
    (Block.new x y).out_of_bounds (x_low, x_high) (y_low, y_high) = true ↔
      (x ≤ x_low ∨ x ≥ x_high - 1 ∨ y ≤ y_low ∨ y ≥ y_high - 1) := by
  simp [Block.new, Block.out_of_bounds, or_assoc]

/-- Witness for C9 at the concrete coordinate (0, 5) in a 10×10 board. -/
theorem out_of_bounds_iff_witness :
    (Block.new 0 5).out_of_bounds (0, 10) (0, 10) = true :=
  (out_of_bounds_iff 0 5 0 10 0 10).mpr (by decide)

/-! ## C4: overlap_tail -/

/-- C4 counterexample: on a freshly constructed snake every body segment
equals the single coordinate (3, 2), which is also the current tail
segment, yet `overlap_tail` reports true for it. -/
theorem overlap_tail_counterexample :
    (Snake.new 2 2 (some 3) (some Direction.Right)).overlap_tail (Block.new 3 2) = true ∧
      (Snake.new 2 2 (some 3) (some Direction.Right)).body.getLast? = some (Block.new 3 2) := by
  decide

/-- C4 amended: `overlap_tail c` is true exactly when `c` matches a body
segment other than the current last element; consequently it reports false
for the tail coordinate whenever that coordinate does not also occur among
the earlier segments. -/
theorem overlap_tail_spec (s : Snake) (c : Block) :
    (s.overlap_tail c = true ↔ c ∈ s.body.dropLast) ∧
      (s.body.getLast? = some c → c ∉ s.body.dropLast → s.overlap_tail c = false) := by
  constructor
  · rw [overlap_tail_eq_dropLast]
    exact decide_eq_true_iff
  · intro _ hnot
    rw [overlap_tail_eq_dropLast]
    exact decide_eq_false hnot

/-- Witness for C4 amended: a snake with pairwise distinct body segments,
queried at its tail coordinate. -/
theorem overlap_tail_spec_witness :
    (Snake.mk Direction.Right none [Block.new 1 1, Block.new 2 1, Block.new 3 1] []).overlap_tail
        (Block.new 3 1) = false :=
  (overlap_tail_spec (Snake.mk Direction.Right none
      [Block.new 1 1, Block.new 2 1, Block.new 3 1] []) (Block.new 3 1)).2
    (by decide) (by decide)

/-! ## C2: Snake::new -/

/-- Manhattan (grid) distance between two blocks. -/
def manhattan (a b : Block) : Nat :=
  (a.x - b.x).natAbs + (a.y - b.y).natAbs

/-- All consecutive pairs of a constant list are at Manhattan distance 0. -/
theorem chain_manhattan_replicate (k : Nat) (a : Block) :
    List.Chain' (fun p q => manhattan p q = 0) (List.replicate k a) := by
  induction k with
  | zero => simp
  | succ m ih =>
    rw [List.replicate_succ, List.chain'_cons']
    refine ⟨?_, ih⟩
    intro b hb
    cases m with
    | zero => simp at hb
    | succ nn =>
      rw [List.replicate_succ] at hb
      simp only [List.head?_cons, Option.mem_def, Option.some.injEq] at hb
      subst hb
      simp [manhattan]

/-- C2: `Snake::new x y (some n) (some d)` with `n ≥ 1` produces a body of
exactly `n` copies of the single coordinate `(x+dx, y+dy)` where `(dx, dy)`
is `d`'s unit offset; `head_position` returns `(x+dx, y+dy)`, which differs
from `(x, y)`; and all consecutive body segments are at Manhattan distance
0 (coincident, hence not grid-adjacent). -/
theorem snake_new_spec (x y n : Int) (d : Direction) (hn : 1 ≤ n) :
    (Snake.new x y (some n) (some d)).body =
        List.replicate n.toNat (Block.new (x + d.offset.1) (y + d.offset.2)) ∧
      (Snake.new x y (some n) (some d)).head_position =
        some (Block.new (x + d.offset.1) (y + d.offset.2)) ∧
      Block.new (x + d.offset.1) (y + d.offset.2) ≠ Block.new x y ∧
      List.Chain' (fun p q => manhattan p q = 0) (Snake.new x y (some n) (some d)).body := by
  have hbody : (Snake.new x y (some n) (some d)).body =
      List.replicate n.toNat (Block.new (x + d.offset.1) (y + d.offset.2)) := by
    cases d <;> rfl
  obtain ⟨m, hm⟩ : ∃ m, n.toNat = m + 1 := ⟨n.toNat - 1, by omega⟩
  refine ⟨hbody, ?_, ?_, ?_⟩
  · show (Snake.new x y (some n) (some d)).body.head? = _
    rw [hbody, hm, List.replicate_succ, List.head?_cons]
  · cases d <;> simp [Block.new, Direction.offset]
  · rw [hbody]
    exact chain_manhattan_replicate _ _

/-- Witness for C2 at x = 2, y = 2, n = 3, d = Up. -/
theorem snake_new_spec_witness :
    (Snake.new 2 2 (some 3) (some Direction.Up)).body =
        List.replicate (Int.toNat 3)
          (Block.new (2 + Direction.Up.offset.1) (2 + Direction.Up.offset.2)) ∧
      (Snake.new 2 2 (some 3) (some Direction.Up)).head_position =
        some (Block.new (2 + Direction.Up.offset.1) (2 + Direction.Up.offset.2)) ∧
      Block.new (2 + Direction.Up.offset.1) (2 + Direction.Up.offset.2) ≠ Block.new 2 2 ∧
      List.Chain' (fun p q => manhattan p q = 0) (Snake.new 2 2 (some 3) (some Direction.Up)).body :=
  snake_new_spec 2 2 3 Direction.Up (by norm_num)

/-! ## C7 and C10: move_forward and restore_tail -/

/-- Evaluating `move_forward` on a non-empty body. -/
theorem move_forward_eq (s : Snake) (d : Option Direction) (a : Block) (l : List Block)
    (hb : s.body = a :: l) :
    s.move_forward d = some
      { current_direction := d.getD s.current_direction
        tail := (moveBlock a (d.getD s.current_direction) :: a :: l).getLast?
        body := (moveBlock a (d.getD s.current_direction) :: a :: l).dropLast
        digesting := digStep s.digesting } := by
  unfold Snake.move_forward
  rw [hb]
  rfl

/-- Evaluating `restore_tail` on an occupied tail slot. -/
theorem restore_tail_eq (s : Snake) (t : Block) (h : s.tail = some t) :
    s.restore_tail = some { s with body := s.body ++ [t] } := by
  unfold Snake.restore_tail
  rw [h]

/-- C7: `move_forward` leaves the body length unchanged, and a subsequent
`restore_tail` in the same tick increases it by exactly one relative to the
length before the move. -/
theorem move_forward_len (s : Snake) (d : Option Direction) (s' : Snake)
    (h : s.move_forward d = some s') :
    s'.body.length = s.body.length ∧
      ∃ s'', s'.restore_tail = some s'' ∧ s''.body.length = s.body.length + 1 := by
  cases hb : s.body with
  | nil =>
    unfold Snake.move_forward at h
    rw [hb] at h
    simp at h
  | cons a l =>
    rw [move_forward_eq s d a l hb] at h
    injection h with h
    subst h
    obtain ⟨t, ht⟩ : ∃ t, (a :: l).getLast? = some t :=
      ⟨(a :: l).getLast (by simp), List.getLast?_eq_getLast_of_ne_nil (by simp)⟩
    have htail : (moveBlock a (d.getD s.current_direction) :: a :: l).getLast? = some t :=
      List.getLast?_cons_cons.trans ht
    constructor
    · simp [hb]
    · refine ⟨_, restore_tail_eq _ t htail, ?_⟩
      simp [hb]

/-- Witness for C7: a one-segment snake at (5, 5) moving right. -/
theorem move_forward_len_witness :
    (Snake.mk Direction.Right (some (Block.new 5 5)) [Block.new 6 5] []).body.length =
        (Snake.mk Direction.Right none [Block.new 5 5] []).body.length ∧
      ∃ s'', (Snake.mk Direction.Right (some (Block.new 5 5)) [Block.new 6 5] []).restore_tail =
          some s'' ∧
        s''.body.length = (Snake.mk Direction.Right none [Block.new 5 5] []).body.length + 1 :=
  move_forward_len (Snake.mk Direction.Right none [Block.new 5 5] []) none
    (Snake.mk Direction.Right (some (Block.new 5 5)) [Block.new 6 5] []) (by decide)

/-- C10: on a freshly constructed snake the tail slot is `None` and
`restore_tail` hits the `unwrap` panic; after any successful `move_forward`
the slot holds exactly the popped last segment of the previous body and
`restore_tail` appends it without failing. -/
theorem restore_tail_unwrap_spec :
    (∀ (x y : Int) (l : Option Int) (d : Option Direction),
        (Snake.new x y l d).tail = none ∧ (Snake.new x y l d).restore_tail = none) ∧
      (∀ (s : Snake) (d : Option Direction) (s' : Snake), s.move_forward d = some s' →
        ∃ t, s'.tail = some t ∧ s.body.getLast? = some t ∧
          s'.restore_tail = some { s' with body := s'.body ++ [t] }) := by
  constructor
  · intro x y l d
    exact ⟨rfl, rfl⟩
  · intro s d s' h
    cases hb : s.body with
    | nil =>
      unfold Snake.move_forward at h
      rw [hb] at h
      simp at h
    | cons a l =>
      rw [move_forward_eq s d a l hb] at h
      injection h with h
      subst h
      obtain ⟨t, ht⟩ : ∃ t, (a :: l).getLast? = some t :=
        ⟨(a :: l).getLast (by simp), List.getLast?_eq_getLast_of_ne_nil (by simp)⟩
      have htail : (moveBlock a (d.getD s.current_direction) :: a :: l).getLast? = some t :=
        List.getLast?_cons_cons.trans ht
      exact ⟨t, htail, hb ▸ ht, restore_tail_eq _ t htail⟩

/-- Witness for C10: the fresh-snake part at (2, 2) with defaults, and the
post-move part for a one-segment snake at (5, 5) moving right. -/
theorem restore_tail_unwrap_spec_witness :
    ((Snake.new 2 2 none none).tail = none ∧ (Snake.new 2 2 none none).restore_tail = none) ∧
      ∃ t, (Snake.mk Direction.Right (some (Block.new 5 5)) [Block.new 6 5] []).tail = some t ∧
        (Snake.mk Direction.Right none [Block.new 5 5] []).body.getLast? = some t ∧
        (Snake.mk Direction.Right (some (Block.new 5 5)) [Block.new 6 5] []).restore_tail =
          some { Snake.mk Direction.Right (some (Block.new 5 5)) [Block.new 6 5] [] with
                   body := (Snake.mk Direction.Right (some (Block.new 5 5))
                     [Block.new 6 5] []).body ++ [t] } :=
  ⟨restore_tail_unwrap_spec.1 2 2 none none,
    restore_tail_unwrap_spec.2 (Snake.mk Direction.Right none [Block.new 5 5] []) none
      (Snake.mk Direction.Right (some (Block.new 5 5)) [Block.new 6 5] []) (by decide)⟩

/-! ## C8: key_pressed -/

/-- C8: while playing, a key mapping to the opposite of the head direction
leaves the whole game state unchanged, and any other key appends its
direction to the queue. -/
theorem key_pressed_spec (g : Game) (k : Key) (hgo : g.game_over = false) :
    (keyDirection g k = g.snake.head_direction.opposite → g.key_pressed k = g) ∧
      (keyDirection g k ≠ g.snake.head_direction.opposite →
        g.key_pressed k =
          { g with direction_queue := g.direction_queue ++ [some (keyDirection g k)] }) := by
  unfold Game.key_pressed
  rw [hgo]
  constructor
  · intro h
    simp [h, hgo]
  · intro h
    simp [h, hgo]

/-- Witness for C8: a playing game heading right ignores a Left press and
queues an Up press. -/
theorem key_pressed_spec_witness :
    ((Game.mk (Snake.mk Direction.Right none [Block.new 5 5] []) (some (Block.new 6 4)) []
        20 20 false 0 0 false false []).key_pressed Key.Left =
      Game.mk (Snake.mk Direction.Right none [Block.new 5 5] []) (some (Block.new 6 4)) []
        20 20 false 0 0 false false []) ∧
      ((Game.mk (Snake.mk Direction.Right none [Block.new 5 5] []) (some (Block.new 6 4)) []
          20 20 false 0 0 false false []).key_pressed Key.Up =
        { Game.mk (Snake.mk Direction.Right none [Block.new 5 5] []) (some (Block.new 6 4)) []
            20 20 false 0 0 false false [] with
            direction_queue :=
              (Game.mk (Snake.mk Direction.Right none [Block.new 5 5] []) (some (Block.new 6 4)) []
                20 20 false 0 0 false false []).direction_queue ++
                [some (keyDirection (Game.mk (Snake.mk Direction.Right none [Block.new 5 5] [])
                  (some (Block.new 6 4)) [] 20 20 false 0 0 false false []) Key.Up)] }) :=
  ⟨(key_pressed_spec _ Key.Left rfl).1 (by decide),
    (key_pressed_spec _ Key.Up rfl).2 (by decide)⟩

/-! ## C3: update_snake -/

/-- C3: when the survivability check on the latest queued direction (or the
head direction for an empty queue) fails, `update_snake` only sets the
game-over flag, leaving the snake and the score unchanged; and every normal
termination of `update_snake` ends with `waiting_time = 0` and an empty
direction queue. -/
theorem update_snake_spec (g : Game) :
    (g.check_snake_alive (queued_direction g) = some false →
      g.update_snake = some { g with game_over := true, waiting_time := 0, direction_queue := [] }) ∧
      (∀ g', g.update_snake = some g' → g'.waiting_time = 0 ∧ g'.direction_queue = []) := by
  constructor
  · intro h
    unfold Game.update_snake
    rw [h]
    rfl
  · intro g' h
    unfold Game.update_snake at h
    simp only [Option.map_eq_some'] at h
    obtain ⟨g'', _, hg'⟩ := h
    subst hg'
    exact ⟨rfl, rfl⟩

/-- Witness for C3: a game whose snake sits at (1, 1) heading left on a
10×10 board; the next head (0, 1) is out of bounds, so the tick produces a
pure game-over transition. -/
theorem update_snake_spec_witness :
    (Game.mk (Snake.mk Direction.Left none [Block.new 1 1] []) (some (Block.new 6 4)) []
        10 10 false 1 0 false false []).update_snake =
      some { Game.mk (Snake.mk Direction.Left none [Block.new 1 1] []) (some (Block.new 6 4)) []
               10 10 false 1 0 false false [] with
               game_over := true, waiting_time := 0, direction_queue := [] } :=
  (update_snake_spec _).1 (by decide)

/-! ## C1: check_eaten -/

/-- C1 counterexample: a game whose snake has just moved onto the food at
(3, 2) with stored tail (1, 2). `check_eaten` succeeds, but the digestion
entry is registered at the food coordinate (3, 2) — not at the restored
tail coordinate (1, 2), which has no entry — and its counter is 2, the
length at the moment of eating, not the new length 3. -/
theorem check_eaten_counterexample :
    ((Game.mk (Snake.mk Direction.Right (some (Block.new 1 2))
          [Block.new 3 2, Block.new 2 2] []) (some (Block.new 3 2)) []
        20 20 false 0 0 false false []).check_eaten).map
        (fun g' => (digGet g'.snake.digesting (Block.new 1 2),
          digGet g'.snake.digesting (Block.new 3 2), g'.snake.len)) =
      some (none, some 2, 3) := by
  decide

/-- C1 amended: when the head coincides with the food, `check_eaten` makes
the food absent, increments the score by one, restores the stored tail
(lengthening the body by one), and registers a digestion entry at the food
coordinate — the new head position — with counter equal to the snake's
length at the moment of eating, i.e. the new length minus one. -/
theorem check_eaten_spec (g : Game) (f t : Block)
    (hf : g.food = some f) (hh : g.snake.head_position = some f)
    (ht : g.snake.tail = some t) :
    ∃ g', g.check_eaten = some g' ∧
      g'.food = none ∧
      g'.score = g.score + 1 ∧
      g'.snake.body = g.snake.body ++ [t] ∧
      (g'.snake.body.length : Int) = g.snake.len + 1 ∧
      digGet g'.snake.digesting f = some g.snake.len := by
  unfold Game.check_eaten
  rw [hf, hh]
  simp only [if_pos, Snake.restore_tail, ht, Option.some.injEq, exists_eq_left]
  refine ⟨_, rfl, rfl, rfl, rfl, ?_, ?_⟩
  · simp [Snake.len]
  · exact digGet_digInsert _ _ _

/-- Witness for C1 amended at the counterexample's concrete game state. -/
theorem check_eaten_spec_witness :
    ∃ g', (Game.mk (Snake.mk Direction.Right (some (Block.new 1 2))
          [Block.new 3 2, Block.new 2 2] []) (some (Block.new 3 2)) []
        20 20 false 0 0 false false []).check_eaten = some g' ∧
      g'.food = none ∧
      g'.score = (Game.mk (Snake.mk Direction.Right (some (Block.new 1 2))
          [Block.new 3 2, Block.new 2 2] []) (some (Block.new 3 2)) []
        20 20 false 0 0 false false []).score + 1 ∧
      g'.snake.body = (Game.mk (Snake.mk Direction.Right (some (Block.new 1 2))
          [Block.new 3 2, Block.new 2 2] []) (some (Block.new 3 2)) []
        20 20 false 0 0 false false []).snake.body ++ [Block.new 1 2] ∧
      (g'.snake.body.length : Int) = (Game.mk (Snake.mk Direction.Right (some (Block.new 1 2))
          [Block.new 3 2, Block.new 2 2] []) (some (Block.new 3 2)) []
        20 20 false 0 0 false false []).snake.len + 1 ∧
      digGet g'.snake.digesting (Block.new 3 2) =
        some (Game.mk (Snake.mk Direction.Right (some (Block.new 1 2))
          [Block.new 3 2, Block.new 2 2] []) (some (Block.new 3 2)) []
        20 20 false 0 0 false false []).snake.len :=
  check_eaten_spec _ (Block.new 3 2) (Block.new 1 2) rfl rfl rfl

/-! ## C5: get_escape_offset -/

/-- A candidate offset is valid when its destination neither leaves the
bounds nor overlaps the snake body under the tail-exclusion rule — the
negation of the `continue` guard in `get_escape_offset`. -/
def esc_valid (block : Block) (snake : Snake) (x_bounds y_bounds : Int × Int)
    (offset : Int × Int) : Bool :=
  !((Block.mk (block.x + offset.1) (block.y + offset.2)).out_of_bounds x_bounds y_bounds) &&
    !(snake.overlap_tail (Block.mk (block.x + offset.1) (block.y + offset.2)))

/-- An invalid candidate leaves the loop state unchanged. -/
theorem esc_step_invalid (bk : Block) (sk : Snake) (xb yb : Int × Int) (hd : Block)
    (st : EscState) (o : Int × Int) (h : esc_valid bk sk xb yb o = false) :
    esc_step bk sk xb yb hd st o = st := by
  have h' : (Block.out_of_bounds ⟨bk.x + o.1, bk.y + o.2⟩ xb yb
      || sk.overlap_tail ⟨bk.x + o.1, bk.y + o.2⟩) = true := by
    by_contra hc
    simp only [Bool.or_eq_true, not_or, Bool.not_eq_true] at hc
    simp [esc_valid, hc.1, hc.2] at h
  simp [esc_step, h']

/-- Every offset present after one loop step was already present or is the
just-examined valid candidate. -/
theorem esc_step_offsets_sub (bk : Block) (sk : Snake) (xb yb : Int × Int) (hd : Block)
    (st : EscState) (o : Int × Int) :
    ∀ p ∈ (esc_step bk sk xb yb hd st o).best_offsets,
      p ∈ st.best_offsets ∨ (p = o ∧ esc_valid bk sk xb yb o = true) := by
  intro p hp
  simp only [esc_step] at hp
  by_cases hg : (Block.out_of_bounds ⟨bk.x + o.1, bk.y + o.2⟩ xb yb
      || sk.overlap_tail ⟨bk.x + o.1, bk.y + o.2⟩) = true
  · rw [if_pos hg] at hp
    exact Or.inl hp
  · have hv : esc_valid bk sk xb yb o = true := by
      simp only [Bool.or_eq_true, not_or, Bool.not_eq_true] at hg
      simp [esc_valid, hg.1, hg.2]
    rw [if_neg hg] at hp
    by_cases h1 : st.best_dist < get_distance_sq ⟨bk.x + o.1, bk.y + o.2⟩ hd
    · rw [if_pos h1] at hp
      exact Or.inr ⟨List.mem_singleton.mp hp, hv⟩
    · rw [if_neg h1] at hp
      by_cases h2 : get_distance_sq ⟨bk.x + o.1, bk.y + o.2⟩ hd = st.best_dist
      · rw [if_pos h2] at hp
        rcases List.mem_append.mp hp with hp | hp
        · exact Or.inl hp
        · exact Or.inr ⟨List.mem_singleton.mp hp, hv⟩
      · rw [if_neg h2] at hp
        exact Or.inl hp

/-- One loop step never empties the accumulated offsets. -/
theorem esc_step_ne_nil (bk : Block) (sk : Snake) (xb yb : Int × Int) (hd : Block)
    (st : EscState) (o : Int × Int) (h : st.best_offsets ≠ []) :
    (esc_step bk sk xb yb hd st o).best_offsets ≠ [] := by
  simp only [esc_step]
  by_cases hg : (Block.out_of_bounds ⟨bk.x + o.1, bk.y + o.2⟩ xb yb
      || sk.overlap_tail ⟨bk.x + o.1, bk.y + o.2⟩) = true
  · rw [if_pos hg]
    exact h
  · rw [if_neg hg]
    by_cases h1 : st.best_dist < get_distance_sq ⟨bk.x + o.1, bk.y + o.2⟩ hd
    · rw [if_pos h1]
      simp
    · rw [if_neg h1]
      by_cases h2 : get_distance_sq ⟨bk.x + o.1, bk.y + o.2⟩ hd = st.best_dist
      · rw [if_pos h2]
        simp
      · rw [if_neg h2]
        exact h

/-- The candidate loop never empties the offset list. -/
theorem esc_foldl_ne_nil (bk : Block) (sk : Snake) (xb yb : Int × Int) (hd : Block) :
    ∀ (l : List (Int × Int)) (st : EscState), st.best_offsets ≠ [] →
      (l.foldl (esc_step bk sk xb yb hd) st).best_offsets ≠ [] := by
  intro l
  induction l with
  | nil => intro st h; exact h
  | cons a as ih =>
    intro st h
    rw [List.foldl_cons]
    exact ih _ (esc_step_ne_nil bk sk xb yb hd st a h)

/-- Offsets surviving the candidate loop are initial or valid candidates. -/
theorem esc_foldl_mem (bk : Block) (sk : Snake) (xb yb : Int × Int) (hd : Block) :
    ∀ (l : List (Int × Int)) (st : EscState) (p : Int × Int),
      p ∈ (l.foldl (esc_step bk sk xb yb hd) st).best_offsets →
      p ∈ st.best_offsets ∨ (p ∈ l ∧ esc_valid bk sk xb yb p = true) := by
  intro l
  induction l with
  | nil => intro st p hp; exact Or.inl hp
  | cons a as ih =>
    intro st p hp
    rw [List.foldl_cons] at hp
    rcases ih _ p hp with h1 | h2
    · rcases esc_step_offsets_sub bk sk xb yb hd st a p h1 with h3 | ⟨rfl, hv⟩
      · exact Or.inl h3
      · exact Or.inr ⟨List.mem_cons_self _ _, hv⟩
    · exact Or.inr ⟨List.mem_cons_of_mem _ h2.1, h2.2⟩

/-- When every candidate is invalid the loop leaves its state untouched. -/
theorem esc_foldl_all_invalid (bk : Block) (sk : Snake) (xb yb : Int × Int) (hd : Block) :
    ∀ (l : List (Int × Int)) (st : EscState),
      (∀ o ∈ l, esc_valid bk sk xb yb o = false) →
      l.foldl (esc_step bk sk xb yb hd) st = st := by
  intro l
  induction l with
  | nil => intro st _; rfl
  | cons a as ih =>
    intro st h
    rw [List.foldl_cons, esc_step_invalid bk sk xb yb hd st a (h a (List.mem_cons_self _ _))]
    exact ih st fun o ho => h o (List.mem_cons_of_mem _ ho)

/-- C5 counterexample: food at (1, 1) on a 3×3 board (only interior cell
(1, 1)) with a snake whose body occupies (1, 1) with tail elsewhere. All
four moving candidates are out of bounds, so `get_escape_offset` returns
the stay-put offset (0, 0) — whose destination (1, 1) is in bounds yet
overlaps the snake body under the tail-exclusion rule, contradicting the
claim that the returned offset never has such a destination. -/
theorem get_escape_offset_counterexample :
    get_escape_offset (Block.new 1 1)
        (Snake.mk Direction.Right none [Block.new 1 1, Block.new 5 5] []) (0, 3) (0, 3) 0 =
      some (0, 0) ∧
      (Snake.mk Direction.Right none [Block.new 1 1, Block.new 5 5] []).overlap_tail
          (Block.new 1 1) = true ∧
      (Block.new 1 1).out_of_bounds (0, 3) (0, 3) = false := by
  decide

/-- C5 amended: `get_escape_offset` returns one of the five candidate
offsets; every returned offset other than the unconditionally-permitted
stay-put offset (0, 0) has a destination that is in bounds and does not
overlap the snake body (excluding the current tail); and when all four
moving candidates are invalid it returns (0, 0). The validity guarantee
does not extend to (0, 0) itself, whose destination is never checked. -/
theorem get_escape_offset_spec (block : Block) (snake : Snake) (x_bounds y_bounds : Int × Int)
    (choice : Nat) (hp : Block) (hh : snake.head_position = some hp) :
    ∃ o, get_escape_offset block snake x_bounds y_bounds choice = some o ∧
      o ∈ [((0 : Int), (0 : Int)), (0, -1), (0, 1), (-1, 0), (1, 0)] ∧
      (o ≠ (0, 0) → esc_valid block snake x_bounds y_bounds o = true) ∧
      ((∀ m ∈ Direction.offsets.map Prod.snd,
          esc_valid block snake x_bounds y_bounds m = false) → o = (0, 0)) := by
  have heq : get_escape_offset block snake x_bounds y_bounds choice =
      some ((esc_fold block snake x_bounds y_bounds hp).best_offsets.getD
        (choice % (esc_fold block snake x_bounds y_bounds hp).best_offsets.length) (0, 0)) := by
    unfold get_escape_offset
    rw [hh]
  have hne : (esc_fold block snake x_bounds y_bounds hp).best_offsets ≠ [] := by
    unfold esc_fold
    exact esc_foldl_ne_nil block snake x_bounds y_bounds hp _ _ (by simp)
  have hlt : choice % (esc_fold block snake x_bounds y_bounds hp).best_offsets.length <
      (esc_fold block snake x_bounds y_bounds hp).best_offsets.length :=
    Nat.mod_lt _ (List.length_pos.mpr hne)
  have hmem : (esc_fold block snake x_bounds y_bounds hp).best_offsets.getD
      (choice % (esc_fold block snake x_bounds y_bounds hp).best_offsets.length) (0, 0) ∈
      (esc_fold block snake x_bounds y_bounds hp).best_offsets := by
    rw [List.getD_eq_getElem _ _ hlt]
    exact List.getElem_mem _
  have hcases := esc_foldl_mem block snake x_bounds y_bounds hp
    (Direction.offsets.map Prod.snd) _ _ hmem
  refine ⟨_, heq, ?_, ?_, ?_⟩
  · rcases hcases with h0 | ⟨hmo, _⟩
    · rw [List.mem_singleton.mp h0]
      simp
    · have : Direction.offsets.map Prod.snd =
          [((0 : Int), (-1 : Int)), (0, 1), (-1, 0), (1, 0)] := rfl
      rw [this] at hmo
      simp only [List.mem_cons, List.mem_singleton] at hmo ⊢
      tauto
  · intro hno
    rcases hcases with h0 | ⟨_, hv⟩
    · exact absurd (List.mem_singleton.mp h0) hno
    · exact hv
  · intro hall
    have hfold : (esc_fold block snake x_bounds y_bounds hp).best_offsets = [(0, 0)] := by
      unfold esc_fold
      rw [esc_foldl_all_invalid block snake x_bounds y_bounds hp _ _ hall]
    rw [hfold]
    rcases Nat.lt_one_iff.mp (by simpa [hfold] using hlt) with h
    simp [h]

/-- Witness for C5 amended: food at (10, 10), a one-segment snake at
(5, 5), a 20×20 board and tie-break index 0. -/
theorem get_escape_offset_spec_witness :
    ∃ o, get_escape_offset (Block.new 10 10)
        (Snake.mk Direction.Right none [Block.new 5 5] []) (0, 20) (0, 20) 0 = some o ∧
      o ∈ [((0 : Int), (0 : Int)), (0, -1), (0, 1), (-1, 0), (1, 0)] ∧
      (o ≠ (0, 0) → esc_valid (Block.new 10 10)
        (Snake.mk Direction.Right none [Block.new 5 5] []) (0, 20) (0, 20) o = true) ∧
      ((∀ m ∈ Direction.offsets.map Prod.snd,
          esc_valid (Block.new 10 10)
            (Snake.mk Direction.Right none [Block.new 5 5] []) (0, 20) (0, 20) m = false) →
        o = (0, 0)) :=
  get_escape_offset_spec (Block.new 10 10)
    (Snake.mk Direction.Right none [Block.new 5 5] []) (0, 20) (0, 20) 0
    (Block.new 5 5) rfl
/-! ## C6: escape -/

/-- Counting the draws below an inclusive threshold in an initial segment. -/
theorem filter_range_le_card (N k : Nat) :
    ((Finset.range N).filter fun r => r ≤ k).card = min (k + 1) N := by
  have h : (Finset.range N).filter (fun r => r ≤ k) = Finset.range (min (k + 1) N) := by
    ext r
    simp only [Finset.mem_filter, Finset.mem_range, lt_min_iff]
    omega
  rw [h, Finset.card_range]

/-- Evaluating `escape` on a successful offset computation and a positive
area: the clamp is `max 0 (min · area)` and the draw comparison is the
inclusive `r ≤ w` of the source. -/
theorem escape_eq (block : Block) (snake : Snake) (x_bounds y_bounds : Int × Int)
    (choice : Nat) (escVal : Int × Int)
    (hesc : get_escape_offset block snake x_bounds y_bounds choice = some escVal)
    (hpos : 0 < (x_bounds.2 - x_bounds.1) * (y_bounds.2 - y_bounds.1)) (r : Int) :
    escape block snake x_bounds y_bounds r choice =
      some (if r ≤ max 0 (min (snake.len * FOOD_SPEED_INCREASE)
          ((x_bounds.2 - x_bounds.1) * (y_bounds.2 - y_bounds.1))) then escVal else (0, 0)) := by
  unfold escape
  rw [hesc]
  simp only []
  rw [if_neg (not_le.mpr hpos)]

/-- C6 counterexample: food at (10, 10), a one-segment snake at (5, 5) on a
20×20 board (area 400). The escape offset is (0, 1) and the weight is
min(1·5, 400) = 5, but the draw comparison `r ≤ 5` is inclusive, so 6 of
the 400 draws — not 5, as probability min(len·5, area)/area would
require — return the evasive offset. -/
theorem escape_probability_counterexample :
    ((Finset.range 400).filter fun r : Nat =>
        escape (Block.new 10 10) (Snake.mk Direction.Right none [Block.new 5 5] [])
          (0, 20) (0, 20) (r : Int) 0 = some (0, 1)).card = 6 ∧ (6 : Nat) ≠ 5 := by
  constructor
  · have hW : max (0 : Int) (min ((Snake.mk Direction.Right none [Block.new 5 5] []).len *
        FOOD_SPEED_INCREASE) ((((0 : Int), (20 : Int)).2 - ((0 : Int), (20 : Int)).1) *
          (((0 : Int), (20 : Int)).2 - ((0 : Int), (20 : Int)).1))) = 5 := by decide
    have hval : ∀ r ∈ Finset.range 400, (escape (Block.new 10 10)
        (Snake.mk Direction.Right none [Block.new 5 5] []) (0, 20) (0, 20) (r : Int) 0 =
          some ((0 : Int), (1 : Int))) ↔ r ≤ 5 := by
      intro r _
      rw [escape_eq (Block.new 10 10) (Snake.mk Direction.Right none [Block.new 5 5] [])
        (0, 20) (0, 20) 0 (0, 1) (by decide) (by decide) (r : Int)]
      rw [hW]
      by_cases hr : (r : Int) ≤ 5
      · rw [if_pos hr]
        simp only [Option.some.injEq]
        constructor
        · intro _; omega
        · intro _; trivial
      · rw [if_neg hr]
        simp only [Option.some.injEq, Prod.mk.injEq]
        constructor
        · intro h; omega
        · intro h; exfalso; omega
    rw [Finset.filter_congr hval, filter_range_le_card]
    omega
  · omega

/-- C6 amended: `escape` uses the fixed speed constant
`FOOD_SPEED_INCREASE = 5`, computes `area` and the weight
`w = clamp(len·5, 0, area)`, and returns the `get_escape_offset` result
exactly when the draw `r` satisfies the inclusive comparison `r ≤ w`,
otherwise (0, 0); hence over the uniform draw on `[0, area)` the number of
evading draws is `min(len·5 + 1, area)`, giving evasion probability
`min(len·5 + 1, area)/area`. -/
theorem escape_spec (block : Block) (snake : Snake) (x_bounds y_bounds : Int × Int)
    (choice : Nat) (escVal : Int × Int) (area : Int)
    (harea : area = (x_bounds.2 - x_bounds.1) * (y_bounds.2 - y_bounds.1)) (hpos : 0 < area)
    (hesc : get_escape_offset block snake x_bounds y_bounds choice = some escVal) :
    (∀ r : Int, escape block snake x_bounds y_bounds r choice =
        some (if r ≤ max 0 (min (snake.len * FOOD_SPEED_INCREASE) area) then escVal
          else (0, 0))) ∧
      (escVal ≠ (0, 0) →
        ((Finset.range area.toNat).filter fun r : Nat =>
            escape block snake x_bounds y_bounds (r : Int) choice = some escVal).card =
          (min (snake.len * FOOD_SPEED_INCREASE + 1) area).toNat) := by
  subst harea
  refine ⟨fun r => escape_eq block snake x_bounds y_bounds choice escVal hesc hpos r, ?_⟩
  intro hne0
  have hk : 0 ≤ snake.len * FOOD_SPEED_INCREASE :=
    mul_nonneg (Int.natCast_nonneg _) (by norm_num [FOOD_SPEED_INCREASE])
  have hval : ∀ r ∈ Finset.range ((x_bounds.2 - x_bounds.1) * (y_bounds.2 - y_bounds.1)).toNat,
      (escape block snake x_bounds y_bounds (r : Int) choice = some escVal) ↔
        r ≤ (max 0 (min (snake.len * FOOD_SPEED_INCREASE)
          ((x_bounds.2 - x_bounds.1) * (y_bounds.2 - y_bounds.1)))).toNat := by
    intro r _
    rw [escape_eq block snake x_bounds y_bounds choice escVal hesc hpos (r : Int)]
    by_cases hr : (r : Int) ≤ max 0 (min (snake.len * FOOD_SPEED_INCREASE)
        ((x_bounds.2 - x_bounds.1) * (y_bounds.2 - y_bounds.1)))
    · rw [if_pos hr]
      simp only [Option.some.injEq]
      constructor
      · intro _; omega
      · intro _; trivial
    · rw [if_neg hr]
      simp only [Option.some.injEq]
      constructor
      · intro h; exact absurd h.symm hne0
      · intro h
        exfalso
        have hw0 : (0 : Int) ≤ max 0 (min (snake.len * FOOD_SPEED_INCREASE)
            ((x_bounds.2 - x_bounds.1) * (y_bounds.2 - y_bounds.1))) := le_max_left _ _
        omega
  rw [Finset.filter_congr hval, filter_range_le_card]
  omega

/-- Witness for C6 amended at the counterexample's concrete configuration:
min(1·5 + 1, 400) = 6 of the 400 draws evade. -/
theorem escape_spec_witness :
    ((Finset.range (400 : Int).toNat).filter fun r : Nat =>
        escape (Block.new 10 10) (Snake.mk Direction.Right none [Block.new 5 5] [])
          (0, 20) (0, 20) (r : Int) 0 = some (0, 1)).card =
      (min ((Snake.mk Direction.Right none [Block.new 5 5] []).len * FOOD_SPEED_INCREASE + 1)
        400).toNat :=
  (escape_spec (Block.new 10 10) (Snake.mk Direction.Right none [Block.new 5 5] [])
      (0, 20) (0, 20) 0 (0, 1) 400 (by decide) (by decide) (by decide)).2 (by decide)
